import Mathlib

/-!
Verification of the puppet resolution and message relay engine described by
the `aiku/mautrix-mattermost` specification, together with the demo client
`example/multi-agent-puppeting/agents/demo.py`.

The bridge core (Puppet Map, Echo Guard, Relay Router, Admin Control
Surface) ships outside the demo sources, so its operations are modelled
from the specification text; the `Demo` namespace embeds the Python demo
client directly, with HTTP responses supplied as explicit oracle inputs.
-/

set_option autoImplicit false

namespace Bridge

/-- Modelled from the spec: a Puppet pairs one source Identity with one
destination-protocol account (§3 Data Model); the bridge core holding this
type is not part of the demo sources. -/
structure Puppet where
  source_identity : String
  destination_identity : String
  destination_credential : String
  created_at : Nat
deriving Repr, DecidableEq

/-- Modelled from the spec: the Puppet Map is a mapping Identity → Puppet
(§3, §4.1); represented as an association list of entries. -/
abbrev PuppetMap : Type := List (String × Puppet)

/-- Modelled from the spec: `lookup(identity) -> Puppet | not-found`
(§4.1), first entry with the matching identity key. -/
def lookup : PuppetMap → String → Option Puppet
  | [], _ => none
  | (k, p) :: rest, i => if k = i then some p else lookup rest i

/-- Modelled from the spec: the reverse destination-identity index of the
Puppet Map (§3, §4.2 rule 3): is `d` the destination identity of one of
our puppets? -/
def inDestIndex (m : PuppetMap) (d : String) : Bool :=
  m.any (fun kp => kp.2.destination_identity == d)

/-- Modelled from the spec: an Inbound Event (§3) with the fields the Echo
Guard and Relay Router read: the protocol-native relayed/bridged marker
(§4.2 rule 2) and the explicit origin metadata naming a source identity
(§4.3 path 1). -/
structure InboundEvent where
  protocol_origin : String
  sender_identity : String
  room_id : String
  payload : String
  event_id : String
  timestamp : Nat
  relayed_marker : Bool
  origin_metadata : Option String
deriving Repr, DecidableEq

/-- Modelled from the spec: a Relay Record {source_event_id,
destination_event_id, timestamp} (§3), kept for idempotence and echo
prevention. -/
structure RelayRecord where
  source_event_id : String
  destination_event_id : String
  timestamp : Nat
deriving Repr, DecidableEq

/-- Modelled from the spec: static bridge configuration — the bridge's own
system/bot account (§4.2 rule 1) and the configured relay/system
credential and identity used by the fallback path (§4.3 path 3). -/
structure BridgeConfig where
  bot_account : String
  fallback_credential : String
  fallback_identity : String
deriving Repr, DecidableEq

/-- Modelled from the spec: the bridge state mutated by relays and admin
reloads — the current Puppet Map snapshot and the recent Relay Records. -/
structure BridgeState where
  mapping : PuppetMap
  records : List RelayRecord

/-- Modelled from the spec: the puppet named by the event's explicit
origin metadata, when that metadata is present and names a known puppet
(§4.3 path 1). -/
def originPuppet (m : PuppetMap) (e : InboundEvent) : Option Puppet :=
  match e.origin_metadata with
  | some i => lookup m i
  | none => none

/-- Modelled from the spec: `resolveOutboundIdentity(event) ->
(credential, destination_identity)` (§4.3), three-path resolution in
order: origin metadata, raw sender lookup, configured fallback. -/
def resolveOutboundIdentity (cfg : BridgeConfig) (m : PuppetMap)
    (e : InboundEvent) : String × String :=
  match originPuppet m e with
  | some p => (p.destination_credential, p.destination_identity)
  | none =>
    match lookup m e.sender_identity with
    | some p => (p.destination_credential, p.destination_identity)
    | none => (cfg.fallback_credential, cfg.fallback_identity)

/-- Modelled from the spec: the outbound post produced by `relay` — the
credential it posts with, the destination identity it posts as, the
formatted payload and the destination channel. -/
structure OutboundPost where
  credential : String
  destination_identity : String
  payload : String
  channel : String
deriving Repr, DecidableEq

/-- Modelled from the spec: `relay(event)` resolves the outbound identity
and formats the payload (§4.3); on the fallback path the outbound message
is prefixed with the human-readable origin identity so provenance is not
lost. -/
def relay (cfg : BridgeConfig) (m : PuppetMap) (e : InboundEvent) :
    OutboundPost :=
  match originPuppet m e with
  | some p =>
    ⟨p.destination_credential, p.destination_identity, e.payload, e.room_id⟩
  | none =>
    match lookup m e.sender_identity with
    | some p =>
      ⟨p.destination_credential, p.destination_identity, e.payload, e.room_id⟩
    | none =>
      ⟨cfg.fallback_credential, cfg.fallback_identity,
        e.sender_identity ++ ": " ++ e.payload, e.room_id⟩

/-- Modelled from the spec: does the event's source event id match a
pending Relay Record within the retention window (§4.2 rule 4, §4.4
de-duplication)? -/
def recordMatch (records : List RelayRecord) (eventId : String) : Bool :=
  records.any (fun r => r.source_event_id == eventId)

/-- Modelled from the spec: `isEcho(event) -> bool` (§4.2), the four
classification rules applied in order with first match winning: bridge's
own bot account, protocol-native relayed marker, destination-identity
index, pending Relay Record. -/
def isEcho (cfg : BridgeConfig) (m : PuppetMap)
    (records : List RelayRecord) (e : InboundEvent) : Bool :=
  if e.sender_identity = cfg.bot_account then true
  else if e.relayed_marker then true
  else if inDestIndex m e.sender_identity then true
  else recordMatch records e.event_id

/-- Modelled from the spec: one Ingestion Loop step (§4.4): the received
event is passed through the Echo Guard, and only if it is not an echo is
it relayed; a successful relay inserts a Relay Record (§4.3). The
destination event id assigned by the destination API is abstracted as a
tag on the source id. -/
def processEvent (cfg : BridgeConfig) (s : BridgeState) (e : InboundEvent) :
    BridgeState × Option OutboundPost :=
  if isEcho cfg s.mapping s.records e then (s, none)
  else
    ({ s with
        records := ⟨e.event_id, e.event_id ++ "/out", e.timestamp⟩ :: s.records },
      some (relay cfg s.mapping e))

/-- Modelled from the spec: `reload(new_mapping) -> previous_mapping`
(§4.1, §5): the whole Puppet Map snapshot is swapped as a unit and the
previous mapping is returned. -/
def reload (s : BridgeState) (new_mapping : PuppetMap) :
    BridgeState × PuppetMap :=
  ({ s with mapping := new_mapping }, s.mapping)

/-- Modelled from the spec: number of retained Relay Records whose source
event id is `eventId`. -/
def countRecords (records : List RelayRecord) (eventId : String) : Nat :=
  (records.filter (fun r => r.source_event_id == eventId)).length

/-- Modelled from the spec: two Puppet entries conflict when they claim
the same destination identity or reuse the same credential (§4.5
validation). -/
def conflicting (p q : Puppet) : Bool :=
  p.destination_identity == q.destination_identity ||
  p.destination_credential == q.destination_credential

/-- Modelled from the spec: the first later entry conflicting with
`entry`, reported as the pair of their identity keys (§4.5). -/
def conflictWith (entry : String × Puppet) :
    List (String × Puppet) → Option (String × String)
  | [] => none
  | kp :: rest =>
    if conflicting entry.2 kp.2 then some (entry.1, kp.1)
    else conflictWith entry rest

/-- Modelled from the spec: scan a replacement mapping for a pair of
Identities whose Puppets conflict (§4.5). -/
def findConflict : List (String × Puppet) → Option (String × String)
  | [] => none
  | entry :: rest =>
    match conflictWith entry rest with
    | some c => some c
    | none => findConflict rest

/-- Modelled from the spec: a ValidationError names the two conflicting
Identities of a rejected replacement mapping (§4.5, §6, §7). -/
structure ValidationError where
  identity1 : String
  identity2 : String
deriving Repr, DecidableEq

/-- Modelled from the spec: the Admin Control Surface operation (§4.5):
validate the replacement mapping, and either reject it synchronously with
a ValidationError (no state change) or atomically reload the Puppet Map
and return the previous mapping. -/
def adminReload (s : BridgeState) (new_mapping : PuppetMap) :
    Except ValidationError PuppetMap × BridgeState :=
  match findConflict new_mapping with
  | some c => (.error ⟨c.1, c.2⟩, s)
  | none => (.ok (reload s new_mapping).2, (reload s new_mapping).1)

/-- Replace a Puppet's sensitive credential value, leaving every other
field unchanged; used to state that log output is independent of
credential values. -/
def renameCred (f : String → String) (p : Puppet) : Puppet :=
  { p with destination_credential := f p.destination_credential }

/-- Apply a credential replacement to every entry of a Puppet Map. -/
def renameMap (f : String → String) (m : PuppetMap) : PuppetMap :=
  m.map (fun kp => (kp.1, renameCred f kp.2))

/-- Apply a credential replacement to the whole bridge state. -/
def renameState (f : String → String) (s : BridgeState) : BridgeState :=
  { s with mapping := renameMap f s.mapping }

/-- Apply a credential replacement to the static configuration: the
configured relay/system fallback credential (§4.3 path 3) is a
destination credential too, so two runs may also differ in it; the bot
account and fallback identity are identity keys and stay fixed. -/
def renameConfig (f : String → String) (cfg : BridgeConfig) : BridgeConfig :=
  { cfg with fallback_credential := f cfg.fallback_credential }

/-- Modelled from the spec: the operations whose reported output §7
constrains — a relay attempt (succeeding or failing at the destination
API) and an admin reload of the Puppet Map. -/
inductive Op where
  | deliver (e : InboundEvent) (api_ok : Bool)
  | adminSwap (new_mapping : PuppetMap)

/-- Apply a credential replacement to the credentials carried inside an
operation's input. -/
def renameOp (f : String → String) : Op → Op
  | .deliver e api_ok => .deliver e api_ok
  | .adminSwap new_mapping => .adminSwap (renameMap f new_mapping)

/-- Modelled from the spec: the log and error text the bridge emits for an
operation (§4.3, §7): relay outcomes are reported with the event id and
the resolved destination identity key, never the credential value, and a
rejected reload names only the two conflicting identity keys. -/
def opLog (cfg : BridgeConfig) (s : BridgeState) : Op → List String
  | .deliver e api_ok =>
    if api_ok then
      ["relayed " ++ e.event_id ++ " as "
        ++ (resolveOutboundIdentity cfg s.mapping e).2]
    else
      ["relay failed for " ++ e.event_id ++ " as "
        ++ (resolveOutboundIdentity cfg s.mapping e).2]
  | .adminSwap new_mapping =>
    match findConflict new_mapping with
    | some c => ["reload rejected: " ++ c.1 ++ " conflicts with " ++ c.2]
    | none => ["puppet map reloaded"]

end Bridge

namespace Demo

/-- Matrix homeserver name (demo configuration default). -/
def SERVER_NAME : String := "localhost"

/-- The bridge bot MXID that creates portal rooms
(`BRIDGE_BOT_MXID = f"@mattermostbot:{SERVER_NAME}"`). -/
def BRIDGE_BOT_MXID : String := "@mattermostbot:" ++ SERVER_NAME

/-- An HTTP response as the demo client reads it: the status code and the
`errcode` field of the JSON body when one is present. -/
structure HttpResponse where
  status : Nat
  errcode : Option String
deriving Repr, DecidableEq

/-- A room as returned by the Synapse room-list admin API; absent JSON
fields are already collapsed to `""` as by `room.get(...) or ""`. -/
structure Room where
  name : String
  creator : String
  room_id : String
deriving Repr, DecidableEq

/-- An HTTP request issued by `MatrixAgentSender`, with the fields the
claims observe. -/
inductive Request where
  | register (localpart : String)
  | putDisplayName (mxid displayname : String)
  | listRooms
  | join (mxid room_id : String)
  | invite (room_id user_id : String)
deriving Repr, DecidableEq

/-- The mutable fields of `MatrixAgentSender`: `_registered`, `_joined`
and `_room_cache`. -/
structure SenderState where
  registered : List String
  joined : List (String × String)
  room_cache : List (String × String)
deriving Repr, DecidableEq

/-- `MatrixAgentSender._mxid`: `f"@agent-{agent_name}:{SERVER_NAME}"`. -/
def mxid (agent_name : String) : String :=
  "@agent-" ++ agent_name ++ ":" ++ SERVER_NAME

/-- First value bound to a key in an association list; the demo's
`_room_cache` dict lookup. -/
def lookupStr : List (String × String) → String → Option String
  | [], _ => none
  | (k, v) :: rest, i => if k = i then some v else lookupStr rest i

/-- `MatrixAgentSender.register_agent`, with the register response
supplied as an oracle input; returns either the RuntimeError message or
the new state, together with the requests issued. The display-name `PUT`
response is ignored by the code. -/
def register_agent (s : SenderState) (agent_name display_name : String)
    (resp : HttpResponse) : Except String SenderState × List Request :=
  if agent_name ∈ s.registered then (.ok s, [])
  else
    if resp.status = 400 ∧ resp.errcode ≠ some "M_USER_IN_USE" then
      (.error ("Failed to register agent-" ++ agent_name),
        [.register ("agent-" ++ agent_name)])
    else
      (.ok { s with registered := agent_name :: s.registered },
        [.register ("agent-" ++ agent_name),
          .putDisplayName (mxid agent_name) display_name])

/-- Is a character kept by `re.sub(r"[^a-z0-9-]", "", ...)`? -/
def keepChar (c : Char) : Bool :=
  (97 ≤ c.toNat && c.toNat ≤ 122) || (48 ≤ c.toNat && c.toNat ≤ 57) || c == '-'

/-- The demo's room-name normalization:
`re.sub(r"[^a-z0-9-]", "", name.lower().replace(" ", "-"))`. -/
def normalize (name : String) : String :=
  String.mk (((name.data.map Char.toLower).map
    (fun c => if c = ' ' then '-' else c)).filter keepChar)

/-- Does a listed room match a channel name: created by the bridge bot and
its normalized name equal to the channel slug? -/
def roomMatches (channel_name : String) (room : Room) : Bool :=
  room.creator == BRIDGE_BOT_MXID && normalize room.name == channel_name

/-- `MatrixAgentSender.find_portal_room`, with the admin login outcome and
the room-list response supplied as oracle inputs. `adminLogin` is
`.error msg` when the admin password login fails (its RuntimeError
propagates), `.ok token` otherwise. -/
def find_portal_room (s : SenderState) (channel_name : String)
    (adminLogin : Except String String) (listStatus : Nat)
    (rooms : List Room) :
    Except String (Option String × SenderState) × List Request :=
  match lookupStr s.room_cache channel_name with
  | some room_id => (.ok (some room_id, s), [])
  | none =>
    match adminLogin with
    | .error msg => (.error msg, [])
    | .ok _ =>
      if listStatus ≠ 200 then (.ok (none, s), [.listRooms])
      else
        match rooms.find? (roomMatches channel_name) with
        | some room =>
          (.ok (some room.room_id,
            { s with
                room_cache := (channel_name, room.room_id) :: s.room_cache }),
            [.listRooms])
        | none => (.ok (none, s), [.listRooms])

/-- `MatrixAgentSender.ensure_joined`, with the two join attempts' HTTP
status codes supplied as oracle inputs (the invite response is ignored by
the code; the invite and the second join are only issued when the direct
join fails). -/
def ensure_joined (s : SenderState) (agent_name room_id : String)
    (join1 join2 : Nat) : SenderState × List Request :=
  if (agent_name, room_id) ∈ s.joined then (s, [])
  else if join1 = 200 then
    ({ s with joined := (agent_name, room_id) :: s.joined },
      [.join (mxid agent_name) room_id])
  else if join2 = 200 then
    ({ s with joined := (agent_name, room_id) :: s.joined },
      [.join (mxid agent_name) room_id, .invite room_id (mxid agent_name),
        .join (mxid agent_name) room_id])
  else
    (s, [.join (mxid agent_name) room_id, .invite room_id (mxid agent_name),
      .join (mxid agent_name) room_id])

end Demo

namespace Bridge

theorem string_beq_comm (a b : String) : (a == b) = (b == a) := by
  by_cases h : a = b
  · subst h; rfl
  · have h' : ¬b = a := fun hba => h hba.symm
    simp [h, h']

theorem conflicting_symm (p q : Puppet) :
    conflicting p q = conflicting q p := by
  simp only [conflicting]
  rw [string_beq_comm p.destination_identity q.destination_identity,
    string_beq_comm p.destination_credential q.destination_credential]

theorem conflictWith_isSome_of_mem (entry : String × Puppet)
    (rest : List (String × Puppet)) (x : String × Puppet)
    (hx : x ∈ rest) (hc : conflicting entry.2 x.2 = true) :
    (conflictWith entry rest).isSome = true := by
  induction rest with
  | nil => cases hx
  | cons kp tail ih =>
    by_cases h : conflicting entry.2 kp.2 = true
    · simp [conflictWith, h]
    · rcases List.mem_cons.mp hx with h0 | h'
      · rw [h0] at hc
        exact absurd hc h
      · simpa [conflictWith, h] using ih h'

theorem conflictWith_some_spec (entry : String × Puppet)
    (rest : List (String × Puppet)) (x y : String)
    (h : conflictWith entry rest = some (x, y)) :
    x = entry.1 ∧ ∃ q, (y, q) ∈ rest ∧ conflicting entry.2 q = true := by
  induction rest with
  | nil => simp [conflictWith] at h
  | cons kp tail ih =>
    by_cases hc : conflicting entry.2 kp.2 = true
    · have h' : entry.1 = x ∧ kp.1 = y := by
        simpa [conflictWith, hc] using h
      refine ⟨h'.1.symm, kp.2, ?_, hc⟩
      have hkp : kp = (y, kp.2) := by rw [← h'.2]
      rw [← hkp]
      exact List.mem_cons_self kp tail
    · have h' : conflictWith entry tail = some (x, y) := by
        simpa [conflictWith, hc] using h
      rcases ih h' with ⟨hx1, q, hq, hcq⟩
      exact ⟨hx1, q, List.mem_cons_of_mem kp hq, hcq⟩

theorem findConflict_isSome_of_conflict
    (l : List (String × Puppet)) (a b : String) (pa pb : Puppet)
    (ha : (a, pa) ∈ l) (hb : (b, pb) ∈ l) (hab : (a, pa) ≠ (b, pb))
    (hc : conflicting pa pb = true) :
    (findConflict l).isSome = true := by
  induction l with
  | nil => cases ha
  | cons e rest ih =>
    cases hcw : conflictWith e rest with
    | some c => simp [findConflict, hcw]
    | none =>
      rcases List.mem_cons.mp ha with ha0 | ha'
      · rcases List.mem_cons.mp hb with hb0 | hb'
        · exact absurd (ha0.trans hb0.symm) hab
        · have hs := conflictWith_isSome_of_mem e rest (b, pb) hb'
            (by rw [← ha0]; exact hc)
          rw [hcw] at hs
          simp at hs
      · rcases List.mem_cons.mp hb with hb0 | hb'
        · have hs := conflictWith_isSome_of_mem e rest (a, pa) ha'
            (by rw [← hb0, conflicting_symm]; exact hc)
          rw [hcw] at hs
          simp at hs
        · simpa [findConflict, hcw] using ih ha' hb'

theorem findConflict_sound
    (l : List (String × Puppet)) (x y : String)
    (hnd : (l.map Prod.fst).Nodup)
    (h : findConflict l = some (x, y)) :
    x ≠ y ∧ ∃ px py, (x, px) ∈ l ∧ (y, py) ∈ l ∧ conflicting px py = true := by
  induction l with
  | nil => simp [findConflict] at h
  | cons e rest ih =>
    rw [List.map_cons, List.nodup_cons] at hnd
    cases hcw : conflictWith e rest with
    | some c =>
      obtain ⟨cx, cy⟩ := c
      have hxy : cx = x ∧ cy = y := by
        have h2 := h
        simp [findConflict, hcw] at h2
        exact h2
      rcases conflictWith_some_spec e rest cx cy hcw with ⟨hcx, q, hq, hcq⟩
      have hx : x = e.1 := hxy.1.symm.trans hcx
      have hyq : (y, q) ∈ rest := by
        rw [← hxy.2]
        exact hq
      refine ⟨?_, e.2, q, ?_, List.mem_cons_of_mem e hyq, hcq⟩
      · intro hxyeq
        apply hnd.1
        rw [← hx, hxyeq]
        exact List.mem_map_of_mem Prod.fst hyq
      · rw [hx]
        exact List.mem_cons_self e rest
    | none =>
      have h' : findConflict rest = some (x, y) := by
        have h2 := h
        simp [findConflict, hcw] at h2
        exact h2
      rcases ih hnd.2 h' with ⟨hxy, px, py, hpx, hpy, hcp⟩
      exact ⟨hxy, px, py, List.mem_cons_of_mem e hpx,
        List.mem_cons_of_mem e hpy, hcp⟩

/-- C1: when an inbound event carries explicit origin metadata naming a
known puppet and its raw sender identity is a different known puppet,
`resolveOutboundIdentity` returns the metadata-named puppet's credential
and destination identity, not the raw sender's: path 1 strictly precedes
path 2. -/
theorem resolveOutboundIdentity_metadata_first
    (cfg : BridgeConfig) (m : PuppetMap) (e : InboundEvent)
    (origin : String) (p1 p2 : Puppet)
    (hmeta : e.origin_metadata = some origin)
    (hp1 : lookup m origin = some p1)
    (hp2 : lookup m e.sender_identity = some p2)
    (hdiff : p1.destination_identity ≠ p2.destination_identity) :
    resolveOutboundIdentity cfg m e
      = (p1.destination_credential, p1.destination_identity)
    ∧ (resolveOutboundIdentity cfg m e).2 ≠ p2.destination_identity := by
  have horig : originPuppet m e = some p1 := by
    simp [originPuppet, hmeta, hp1]
  constructor
  · simp [resolveOutboundIdentity, horig]
  · simp [resolveOutboundIdentity, horig]
    exact hdiff

theorem resolveOutboundIdentity_metadata_first_witness :
    resolveOutboundIdentity ⟨"@bot", "ck", "relaybot"⟩
      [("u1", ⟨"u1", "d1", "c1", 0⟩), ("u2", ⟨"u2", "d2", "c2", 0⟩)]
      ⟨"matrix", "u2", "r", "hi", "e1", 5, false, some "u1"⟩
      = ("c1", "d1") :=
  (resolveOutboundIdentity_metadata_first
    ⟨"@bot", "ck", "relaybot"⟩
    [("u1", ⟨"u1", "d1", "c1", 0⟩), ("u2", ⟨"u2", "d2", "c2", 0⟩)]
    ⟨"matrix", "u2", "r", "hi", "e1", 5, false, some "u1"⟩
    "u1" ⟨"u1", "d1", "c1", 0⟩ ⟨"u2", "d2", "c2", 0⟩
    rfl (by decide) (by decide) (by decide)).1

/-- C2: an inbound event whose sender has no mapped puppet (and no origin
metadata naming one) is still relayed: `relay` posts via the configured
fallback credential and embeds the sender identity as a prefix of the
outbound payload, so no message is dropped for lack of a mapped
identity. -/
theorem relay_fallback_no_drop
    (cfg : BridgeConfig) (m : PuppetMap) (e : InboundEvent)
    (hmeta : originPuppet m e = none)
    (hsender : lookup m e.sender_identity = none) :
    relay cfg m e
      = ⟨cfg.fallback_credential, cfg.fallback_identity,
          e.sender_identity ++ ": " ++ e.payload, e.room_id⟩ := by
  simp [relay, hmeta, hsender]

theorem relay_fallback_no_drop_witness :
    relay ⟨"@bot", "ck", "relaybot"⟩ []
      ⟨"matrix", "unknown", "r", "hey", "e1", 5, false, none⟩
      = ⟨"ck", "relaybot", "unknown: hey", "r"⟩ :=
  relay_fallback_no_drop ⟨"@bot", "ck", "relaybot"⟩ []
    ⟨"matrix", "unknown", "r", "hey", "e1", 5, false, none⟩
    (by decide) (by decide)

/-- C3: an inbound event classified as an echo under rules 1–3 (sender is
the bridge's own bot account, the event carries a protocol-native relayed
marker, or the sender is in the Puppet Map's destination-identity index)
is never relayed: `isEcho` returns true and the Ingestion Loop step
produces no outbound post. -/
theorem isEcho_not_relayed
    (cfg : BridgeConfig) (s : BridgeState) (e : InboundEvent)
    (h : e.sender_identity = cfg.bot_account
      ∨ e.relayed_marker = true
      ∨ inDestIndex s.mapping e.sender_identity = true) :
    isEcho cfg s.mapping s.records e = true
    ∧ (processEvent cfg s e).2 = none := by
  have hecho : isEcho cfg s.mapping s.records e = true := by
    rcases h with h1 | h2 | h3
    · simp [isEcho, h1]
    · simp [isEcho, h2]
    · simp [isEcho, h3]
  exact ⟨hecho, by simp [processEvent, hecho]⟩

theorem isEcho_not_relayed_witness :
    isEcho ⟨"@bot", "ck", "relaybot"⟩
        [("u1", ⟨"u1", "d1", "c1", 0⟩)] []
        ⟨"mm", "d1", "r", "hi", "e1", 5, false, none⟩ = true
    ∧ (processEvent ⟨"@bot", "ck", "relaybot"⟩
        ⟨[("u1", ⟨"u1", "d1", "c1", 0⟩)], []⟩
        ⟨"mm", "d1", "r", "hi", "e1", 5, false, none⟩).2 = none :=
  isEcho_not_relayed ⟨"@bot", "ck", "relaybot"⟩
    ⟨[("u1", ⟨"u1", "d1", "c1", 0⟩)], []⟩
    ⟨"mm", "d1", "r", "hi", "e1", 5, false, none⟩
    (Or.inr (Or.inr (by decide)))

/-- C4: `reload` atomically swaps the whole Puppet Map and returns the
previous mapping: after it returns, `lookup` on the new state agrees with
the new mapping on every identity (so an identity present in the new
mapping resolves to its new Puppet, never the old one, and no lookup
mixes old and new entries). -/
theorem reload_atomic_swap
    (s : BridgeState) (new_mapping : PuppetMap) :
    (reload s new_mapping).2 = s.mapping
    ∧ (∀ i, lookup (reload s new_mapping).1.mapping i = lookup new_mapping i)
    ∧ (∀ i p, lookup new_mapping i = some p →
        lookup (reload s new_mapping).1.mapping i = some p) := by
  refine ⟨rfl, fun i => rfl, fun i p h => ?_⟩
  simpa [reload] using h

theorem reload_atomic_swap_witness :
    lookup (reload ⟨[("u1", ⟨"u1", "d1", "c1", 0⟩)], []⟩
        [("u1", ⟨"u1", "d9", "c9", 1⟩)]).1.mapping "u1"
      = some ⟨"u1", "d9", "c9", 1⟩ :=
  (reload_atomic_swap ⟨[("u1", ⟨"u1", "d1", "c1", 0⟩)], []⟩
      [("u1", ⟨"u1", "d9", "c9", 1⟩)]).2.2
    "u1" ⟨"u1", "d9", "c9", 1⟩ (by decide)

/-- C6: relaying is idempotent under upstream redelivery: delivering the
same event twice produces at most one new Relay Record for its source
event id, and the second delivery is never relayed again (it is either an
echo already, or recognized as an echo through the Relay Record inserted
by the first delivery). -/
theorem processEvent_idempotent_redelivery
    (cfg : BridgeConfig) (s : BridgeState) (e : InboundEvent) :
    (processEvent cfg (processEvent cfg s e).1 e).2 = none
    ∧ countRecords (processEvent cfg (processEvent cfg s e).1 e).1.records
        e.event_id
      ≤ countRecords s.records e.event_id + 1 := by
  by_cases hecho : isEcho cfg s.mapping s.records e = true
  · constructor
    · simp [processEvent, hecho]
    · simp [processEvent, hecho]
  · have hfirst :
        (processEvent cfg s e).1
          = { s with
              records :=
                ⟨e.event_id, e.event_id ++ "/out", e.timestamp⟩ :: s.records } := by
      simp [processEvent, hecho]
    have hecho2 :
        isEcho cfg s.mapping
          (⟨e.event_id, e.event_id ++ "/out", e.timestamp⟩ :: s.records) e
          = true := by
      simp only [isEcho] at hecho ⊢
      by_cases h1 : e.sender_identity = cfg.bot_account
      · simp [h1]
      · by_cases h2 : e.relayed_marker
        · simp [h1, h2]
        · by_cases h3 : inDestIndex s.mapping e.sender_identity
          · simp [h1, h2, h3]
          · simp [h1, h2, h3, recordMatch]
    constructor
    · rw [hfirst]
      simp [processEvent, hecho2]
    · rw [hfirst]
      simp [processEvent, hecho2, countRecords]

/-- C5: when the Admin Control Surface is handed a replacement mapping in
which two Identities claim the same destination identity or reuse the same
credential, the operation returns a validation error naming two genuinely
conflicting Identities and the prior bridge state is left entirely
unchanged. -/
theorem adminReload_rejects_conflict
    (s : BridgeState) (new_mapping : PuppetMap)
    (a b : String) (pa pb : Puppet)
    (hnd : (new_mapping.map Prod.fst).Nodup)
    (ha : (a, pa) ∈ new_mapping) (hb : (b, pb) ∈ new_mapping)
    (hab : a ≠ b)
    (hc : pa.destination_identity = pb.destination_identity
        ∨ pa.destination_credential = pb.destination_credential) :
    ∃ x y, adminReload s new_mapping = (.error ⟨x, y⟩, s)
      ∧ x ≠ y
      ∧ ∃ px py, (x, px) ∈ new_mapping ∧ (y, py) ∈ new_mapping
          ∧ conflicting px py = true := by
  have hcb : conflicting pa pb = true := by
    rcases hc with h | h <;> simp [conflicting, h]
  have habpair : (a, pa) ≠ (b, pb) := by
    intro h
    exact hab (congrArg Prod.fst h)
  have hsome :=
    findConflict_isSome_of_conflict new_mapping a b pa pb ha hb habpair hcb
  rcases Option.isSome_iff_exists.mp hsome with ⟨c, hcval⟩
  obtain ⟨x, y⟩ := c
  rcases findConflict_sound new_mapping x y hnd hcval with
    ⟨hxy, px, py, hpx, hpy, hpc⟩
  exact ⟨x, y, by simp [adminReload, hcval], hxy, px, py, hpx, hpy, hpc⟩

theorem adminReload_rejects_conflict_witness :
    ∃ x y, adminReload ⟨[], []⟩
        [("u1", ⟨"u1", "d", "c1", 0⟩), ("u2", ⟨"u2", "d", "c2", 0⟩)]
        = (.error ⟨x, y⟩, ⟨[], []⟩)
      ∧ x ≠ y
      ∧ ∃ px py,
          (x, px) ∈ ([("u1", ⟨"u1", "d", "c1", 0⟩),
            ("u2", ⟨"u2", "d", "c2", 0⟩)] : PuppetMap)
          ∧ (y, py) ∈ ([("u1", ⟨"u1", "d", "c1", 0⟩),
            ("u2", ⟨"u2", "d", "c2", 0⟩)] : PuppetMap)
          ∧ conflicting px py = true :=
  adminReload_rejects_conflict ⟨[], []⟩
    [("u1", ⟨"u1", "d", "c1", 0⟩), ("u2", ⟨"u2", "d", "c2", 0⟩)]
    "u1" "u2" ⟨"u1", "d", "c1", 0⟩ ⟨"u2", "d", "c2", 0⟩
    (by decide) (by decide) (by decide) (by decide) (Or.inl rfl)

theorem lookup_renameMap (f : String → String) (m : PuppetMap) (i : String) :
    lookup (renameMap f m) i = (lookup m i).map (renameCred f) := by
  induction m with
  | nil => rfl
  | cons kp rest ih =>
    obtain ⟨k, p⟩ := kp
    by_cases h : k = i
    · simp [renameMap, lookup, h]
    · simpa [renameMap, lookup, h] using ih

theorem originPuppet_renameMap (f : String → String) (m : PuppetMap)
    (e : InboundEvent) :
    originPuppet (renameMap f m) e = (originPuppet m e).map (renameCred f) := by
  cases hm : e.origin_metadata with
  | none => simp [originPuppet, hm]
  | some i => simp [originPuppet, hm, lookup_renameMap]

theorem resolveOutboundIdentity_renameMap (f : String → String)
    (cfg : BridgeConfig) (m : PuppetMap) (e : InboundEvent) :
    (resolveOutboundIdentity (renameConfig f cfg) (renameMap f m) e).2
      = (resolveOutboundIdentity cfg m e).2 := by
  simp only [resolveOutboundIdentity, originPuppet_renameMap, lookup_renameMap]
  cases originPuppet m e with
  | some p => simp [renameCred]
  | none =>
    cases lookup m e.sender_identity with
    | some p => simp [renameCred]
    | none => simp [renameConfig]

theorem conflicting_renameCred (f : String → String)
    (hf : ∀ a b, f a = f b → a = b) (p q : Puppet) :
    conflicting (renameCred f p) (renameCred f q) = conflicting p q := by
  simp only [conflicting, renameCred]
  have h : (f p.destination_credential == f q.destination_credential)
      = (p.destination_credential == q.destination_credential) := by
    by_cases hc : p.destination_credential = q.destination_credential
    · simp [hc]
    · have hfc : ¬f p.destination_credential = f q.destination_credential :=
        fun hcc => hc (hf _ _ hcc)
      simp [hc, hfc]
  rw [h]

theorem conflictWith_renameMap (f : String → String)
    (hf : ∀ a b, f a = f b → a = b) (k : String) (p : Puppet)
    (rest : List (String × Puppet)) :
    conflictWith (k, renameCred f p) (renameMap f rest)
      = conflictWith (k, p) rest := by
  induction rest with
  | nil => rfl
  | cons kp tail ih =>
    obtain ⟨k2, p2⟩ := kp
    by_cases hc : conflicting p p2 = true
    · have hc2 : conflicting (renameCred f p) (renameCred f p2) = true := by
        rw [conflicting_renameCred f hf]
        exact hc
      simp [conflictWith, renameMap, hc, hc2]
    · have hc2 : ¬conflicting (renameCred f p) (renameCred f p2) = true := by
        rw [conflicting_renameCred f hf]
        exact hc
      simpa [conflictWith, renameMap, hc, hc2] using ih

theorem findConflict_renameMap (f : String → String)
    (hf : ∀ a b, f a = f b → a = b) (l : List (String × Puppet)) :
    findConflict (renameMap f l) = findConflict l := by
  induction l with
  | nil => rfl
  | cons kp rest ih =>
    obtain ⟨k, p⟩ := kp
    have hhd : renameMap f ((k, p) :: rest)
        = (k, renameCred f p) :: renameMap f rest := rfl
    rw [hhd]
    have hcw := conflictWith_renameMap f hf k p rest
    simp only [findConflict, hcw]
    cases hc : conflictWith (k, p) rest with
    | some c => rfl
    | none => exact ih

/-- C7: log and error output is independent of credential values: replacing
every destination credential (injectively, so runs differ only in the
credential values themselves) in the bridge state, in the configured
fallback credential, and in the operation's input leaves the log and error
text of every modelled operation unchanged, so no credential value —
puppet credentials and the fallback credential alike — ever flows into a
log line or error message. -/
theorem opLog_credential_independent
    (f : String → String) (hf : ∀ a b, f a = f b → a = b)
    (cfg : BridgeConfig) (s : BridgeState) (op : Op) :
    opLog (renameConfig f cfg) (renameState f s) (renameOp f op)
      = opLog cfg s op := by
  cases op with
  | deliver e api_ok =>
    cases api_ok with
    | true => simp [opLog, renameOp, renameState, resolveOutboundIdentity_renameMap]
    | false => simp [opLog, renameOp, renameState, resolveOutboundIdentity_renameMap]
  | adminSwap new_mapping =>
    simp only [opLog, renameOp, renameState]
    rw [findConflict_renameMap f hf]

theorem opLog_credential_independent_witness :
    opLog (renameConfig (fun a => a) ⟨"@bot", "ck", "relaybot"⟩)
        (renameState (fun a => a) ⟨[("u1", ⟨"u1", "d1", "c1", 0⟩)], []⟩)
        (renameOp (fun a => a)
          (.deliver ⟨"matrix", "unknown", "r", "hi", "e1", 5, false, none⟩ false))
      = opLog ⟨"@bot", "ck", "relaybot"⟩
        ⟨[("u1", ⟨"u1", "d1", "c1", 0⟩)], []⟩
        (.deliver ⟨"matrix", "unknown", "r", "hi", "e1", 5, false, none⟩ false) :=
  opLog_credential_independent (fun a => a) (fun _ _ h => h)
    ⟨"@bot", "ck", "relaybot"⟩ ⟨[("u1", ⟨"u1", "d1", "c1", 0⟩)], []⟩
    (.deliver ⟨"matrix", "unknown", "r", "hi", "e1", 5, false, none⟩ false)

end Bridge

namespace Demo

/-- C8: `register_agent` is idempotent and tolerates prior registration:
once the name is recorded, a later call returns at once with no HTTP
requests and no state change; a 400 register response whose errcode is
"M_USER_IN_USE" is treated as success (name recorded, display name set);
and it raises RuntimeError exactly when the register response is a 400
with any other errcode. -/
theorem register_agent_spec (s : SenderState)
    (agent_name display_name : String) (resp : HttpResponse) :
    (agent_name ∈ s.registered →
      register_agent s agent_name display_name resp = (.ok s, []))
    ∧ (agent_name ∉ s.registered → resp.status = 400 →
        resp.errcode = some "M_USER_IN_USE" →
        register_agent s agent_name display_name resp
          = (.ok { s with registered := agent_name :: s.registered },
              [.register ("agent-" ++ agent_name),
                .putDisplayName (mxid agent_name) display_name]))
    ∧ ((∃ msg, (register_agent s agent_name display_name resp).1 = .error msg)
        ↔ agent_name ∉ s.registered ∧ resp.status = 400
          ∧ resp.errcode ≠ some "M_USER_IN_USE") := by
  refine ⟨fun hmem => by simp [register_agent, hmem], ?_, ?_⟩
  · intro hmem hst herr
    simp [register_agent, hmem, herr]
  · constructor
    · rintro ⟨msg, hmsg⟩
      by_cases hmem : agent_name ∈ s.registered
      · simp [register_agent, hmem] at hmsg
      · by_cases hcond : resp.status = 400 ∧ resp.errcode ≠ some "M_USER_IN_USE"
        · exact ⟨hmem, hcond.1, hcond.2⟩
        · simp [register_agent, hmem, hcond] at hmsg
    · rintro ⟨hmem, hst, herr⟩
      refine ⟨"Failed to register agent-" ++ agent_name, ?_⟩
      simp [register_agent, hmem, hst, herr]

theorem register_agent_spec_witness :
    register_agent ⟨[], [], []⟩ "coder" "Coder" ⟨400, some "M_USER_IN_USE"⟩
      = (.ok ⟨["coder"], [], []⟩,
          [.register "agent-coder", .putDisplayName "@agent-coder:localhost" "Coder"]) :=
  (register_agent_spec ⟨[], [], []⟩ "coder" "Coder"
    ⟨400, some "M_USER_IN_USE"⟩).2.1 (by decide) rfl rfl

/-- C9: `find_portal_room` returns a room id on the uncached path only
when the listing succeeded (HTTP 200) and some listed room was created by
the bridge bot and has a normalized name equal to the channel name; when
the listing fails or no room matches it returns None without raising; and
a resolved channel is cached so a later call returns the cached room id
with no requests. -/
theorem find_portal_room_spec (s : SenderState) (channel_name : String)
    (adminLogin : Except String String) (listStatus : Nat)
    (rooms : List Room) :
    (∀ room_id, lookupStr s.room_cache channel_name = some room_id →
      find_portal_room s channel_name adminLogin listStatus rooms
        = (.ok (some room_id, s), []))
    ∧ (∀ r s2 reqs, lookupStr s.room_cache channel_name = none →
        find_portal_room s channel_name adminLogin listStatus rooms
          = (.ok (some r, s2), reqs) →
        listStatus = 200
        ∧ (∃ room ∈ rooms, room.creator = BRIDGE_BOT_MXID
            ∧ normalize room.name = channel_name ∧ room.room_id = r)
        ∧ lookupStr s2.room_cache channel_name = some r)
    ∧ (∀ token, lookupStr s.room_cache channel_name = none →
        adminLogin = .ok token →
        (listStatus ≠ 200 ∨ rooms.find? (roomMatches channel_name) = none) →
        find_portal_room s channel_name adminLogin listStatus rooms
          = (.ok (none, s), [.listRooms])) := by
  refine ⟨fun room_id hcache => by simp [find_portal_room, hcache], ?_, ?_⟩
  · intro r s2 reqs hcache hres
    simp only [find_portal_room.eq_def, hcache] at hres
    cases hlogin : adminLogin with
    | error msg => rw [hlogin] at hres; simp at hres
    | ok token =>
      rw [hlogin] at hres
      by_cases hst : listStatus ≠ 200
      · simp [hst] at hres
      · have hst200 : listStatus = 200 := by
          by_contra hne
          exact hst hne
        rw [if_neg hst] at hres
        cases hfind : rooms.find? (roomMatches channel_name) with
        | none => rw [hfind] at hres; simp at hres
        | some room =>
          rw [hfind] at hres
          simp only [Prod.mk.injEq, Except.ok.injEq, Option.some.injEq] at hres
          obtain ⟨⟨hr, hs2⟩, -⟩ := hres
          have hmem : room ∈ rooms := List.mem_of_find?_eq_some hfind
          have hmatch : roomMatches channel_name room = true :=
            List.find?_some hfind
          rw [roomMatches, Bool.and_eq_true, beq_iff_eq, beq_iff_eq] at hmatch
          refine ⟨hst200, ⟨room, hmem, hmatch.1, hmatch.2, hr⟩, ?_⟩
          rw [← hs2]
          simp [lookupStr, hr]
  · intro token hcache hlogin hfail
    simp only [find_portal_room.eq_def, hcache, hlogin]
    rcases hfail with hst | hfind
    · simp [hst]
    · by_cases hst : listStatus ≠ 200
      · simp [hst]
      · rw [if_neg hst, hfind]

theorem find_portal_room_spec_witness :
    find_portal_room ⟨[], [], []⟩ "town-square" (.ok "tok") 200
      [⟨"Town Square", "@mattermostbot:localhost", "!r1:localhost"⟩]
      = (.ok (some "!r1:localhost",
          ⟨[], [], [("town-square", "!r1:localhost")]⟩), [.listRooms])
    ∧ find_portal_room ⟨[], [], [("town-square", "!r1:localhost")]⟩
        "town-square" (.error "login failed") 0 []
      = (.ok (some "!r1:localhost",
          ⟨[], [], [("town-square", "!r1:localhost")]⟩), []) := by
  constructor
  · rfl
  · exact (find_portal_room_spec
      ⟨[], [], [("town-square", "!r1:localhost")]⟩ "town-square"
      (.error "login failed") 0 []).1 "!r1:localhost" rfl

/-- C10: `ensure_joined` records a pair in `_joined` only when some join
request for it returned HTTP 200 (directly, or after the invite from the
bridge bot); on join failure it returns normally with `_joined`
unchanged, and a later call for a pair not yet in `_joined` re-issues the
join request rather than skipping it. -/
theorem ensure_joined_spec (s : SenderState) (agent_name room_id : String)
    (join1 join2 : Nat) :
    ((agent_name, room_id)
        ∈ (ensure_joined s agent_name room_id join1 join2).1.joined →
      (agent_name, room_id) ∈ s.joined ∨ join1 = 200 ∨ join2 = 200)
    ∧ (join1 ≠ 200 → join2 ≠ 200 →
        (ensure_joined s agent_name room_id join1 join2).1 = s)
    ∧ ((agent_name, room_id) ∉ s.joined →
        (ensure_joined s agent_name room_id join1 join2).2.head?
          = some (.join (mxid agent_name) room_id)) := by
  refine ⟨?_, ?_, ?_⟩
  · intro hres
    by_cases hmem : (agent_name, room_id) ∈ s.joined
    · exact Or.inl hmem
    · by_cases h1 : join1 = 200
      · exact Or.inr (Or.inl h1)
      · by_cases h2 : join2 = 200
        · exact Or.inr (Or.inr h2)
        · rw [ensure_joined, if_neg hmem, if_neg h1, if_neg h2] at hres
          exact Or.inl hres
  · intro h1 h2
    by_cases hmem : (agent_name, room_id) ∈ s.joined
    · simp [ensure_joined, hmem]
    · rw [ensure_joined, if_neg hmem, if_neg h1, if_neg h2]
  · intro hmem
    by_cases h1 : join1 = 200
    · simp [ensure_joined, hmem, h1]
    · by_cases h2 : join2 = 200
      · simp [ensure_joined, hmem, h1, h2]
      · simp [ensure_joined, hmem, h1, h2]

theorem ensure_joined_spec_witness :
    (ensure_joined ⟨[], [], []⟩ "coder" "!r1:localhost" 403 403).1
      = (⟨[], [], []⟩ : SenderState) :=
  (ensure_joined_spec ⟨[], [], []⟩ "coder" "!r1:localhost" 403 403).2.1
    (by decide) (by decide)

end Demo
